import Mathlib

/-!
Shallow embedding of the playback core of `web-hotkey-player`
(`src/contexts/AudioContext.tsx`) and of its settings interchange layer
(`src/services/settingsService.ts`).  Times and volumes are modelled as
rationals; the JavaScript `x || 0` reading of the optional trim fields is
made explicit through `orZero`, and the truthiness tests on nullable
string fields (`if (currentPlaylistId)`, `playlistId || null`) are made
explicit through `jsTruthyStr` and `jsOrNull`.
-/

namespace Soundboard

/-- The `type` discriminant of an assigned item (`'audio' | 'playlist'`). -/
inductive AType where
  | audio
  | playlist
deriving DecidableEq, Repr

/-- `AssignedItem` from `types.ts`. -/
structure AssignedItem where
  type : AType
  id : String
deriving DecidableEq, Repr

/-- `HotKey` from `types.ts`. -/
structure HotKey where
  id : String
  bankId : Nat
  position : Nat
  assignedItem : Option AssignedItem
deriving DecidableEq, Repr

/-- `AudioFile` from `types.ts`; `trimHead`/`trimTail` are optional fields. -/
structure AudioFile where
  id : String
  name : String
  src : String
  duration : ℚ
  volume : ℚ
  type : String
  trimHead : Option ℚ
  trimTail : Option ℚ
deriving DecidableEq, Repr

/-- `PlaylistItem` from `types.ts`. -/
structure PlaylistItem where
  id : String
  audioId : String
deriving DecidableEq, Repr

/-- `Playlist` from `types.ts` (`playbackMode` kept as a plain string). -/
structure Playlist where
  id : String
  name : String
  items : List PlaylistItem
  playbackMode : String
deriving DecidableEq, Repr

/-- `PlaybackStatus` from `types.ts`. -/
structure PlaybackStatus where
  isPlaying : Bool
  currentItem : Option AssignedItem
  currentAudioId : Option String
  elapsedTime : ℚ
  currentPlaylistId : Option String
  currentPlaylistIndex : Nat
  loop : Bool
deriving DecidableEq, Repr

/-- The JavaScript `x || 0` read of an optional numeric field. -/
def orZero (o : Option ℚ) : ℚ :=
  match o with
  | none => 0
  | some x => x

/-- JavaScript truthiness of a nullable string (`null` and `""` are falsy). -/
def jsTruthyStr (o : Option String) : Bool :=
  match o with
  | none => false
  | some s => s ≠ ""

/-- The JavaScript `s || null` normalisation of a nullable string. -/
def jsOrNull (o : Option String) : Option String :=
  match o with
  | none => none
  | some s => if s = "" then none else some s

/-- Events the audio engine raises towards the coordinator. -/
inductive EngineEvent where
  | timeUpdate (t : ℚ)
  | ended
deriving DecidableEq, Repr

/-- The mutable state of the `AudioPlayer` engine class: the media element's
source, volume and position together with the `currentTailTrim` and
`currentDuration` fields of the class. -/
structure AudioPlayerState where
  src : String
  volume : ℚ
  currentTime : ℚ
  currentTailTrim : ℚ
  currentDuration : ℚ
  paused : Bool
deriving DecidableEq, Repr

namespace AudioPlayerState

/-- `AudioPlayer.play`: set the source, volume, start position, tail trim and
duration, and begin output.  The body raises no engine event. -/
def play (p : AudioPlayerState) (src : String) (volume : ℚ) (startTime : ℚ)
    (tailTrim : ℚ) (duration : ℚ) : AudioPlayerState × List EngineEvent :=
  ({ p with
      src := src
      volume := volume
      currentTime := startTime
      currentTailTrim := tailTrim
      currentDuration := duration
      paused := false }, [])

/-- `AudioPlayer.pause`: halt output keeping the position. -/
def pause (p : AudioPlayerState) : AudioPlayerState × List EngineEvent :=
  ({ p with paused := true }, [])

/-- `AudioPlayer.stop`: halt output and reset the position to zero.  The body
raises no engine event. -/
def stop (p : AudioPlayerState) : AudioPlayerState × List EngineEvent :=
  ({ p with paused := true, currentTime := 0 }, [])

/-- `AudioPlayer.setCurrentTime`. -/
def setCurrentTime (p : AudioPlayerState) (time : ℚ) : AudioPlayerState :=
  { p with currentTime := time }

/-- The `timeupdate` listener installed in `AudioPlayer.initialize`, invoked
with the media element's current time `t`: it re-emits a time-progress event
and, when the tail-trim boundary is reached, stops output and raises a
completion event. -/
def tick (p : AudioPlayerState) (t : ℚ) : AudioPlayerState × List EngineEvent :=
  if p.currentTailTrim > 0 ∧ t ≥ p.currentDuration - p.currentTailTrim then
    let r := AudioPlayerState.stop { p with currentTime := t }
    (r.1, EngineEvent.timeUpdate t :: r.2 ++ [EngineEvent.ended])
  else
    ({ p with currentTime := t }, [EngineEvent.timeUpdate t])

end AudioPlayerState

/-- The whole coordinator state: the three stores, the playback session and
the engine. -/
structure AppState where
  audioFiles : List AudioFile
  hotkeys : List HotKey
  playlists : List Playlist
  playbackStatus : PlaybackStatus
  player : AudioPlayerState
deriving DecidableEq, Repr

namespace AppState

/-- `playAudio(audioId, playlistId?, playlistIndex?)`: look the clip up, start
the engine from the head-trim offset with the tail trim armed, and record the
new session fields.  A missing clip id leaves the state unchanged. -/
def playAudio (s : AppState) (audioId : String) (playlistId : Option String)
    (playlistIndex : Option Nat) : AppState :=
  match s.audioFiles.find? (fun a => a.id == audioId) with
  | none => s
  | some audioFile =>
    let startTime := orZero audioFile.trimHead
    let tailTrim := orZero audioFile.trimTail
    let player := (s.player.play audioFile.src audioFile.volume startTime
      tailTrim audioFile.duration).1
    { s with
        player := player
        playbackStatus := { s.playbackStatus with
          isPlaying := true
          currentAudioId := some audioId
          elapsedTime := startTime
          currentPlaylistId := jsOrNull playlistId
          currentPlaylistIndex := playlistIndex.getD 0 } }

/-- `play(item)`: for an audio item, delegate to `playAudio` and then record
the item, clearing the playlist fields; for a playlist item, start its first
clip when the playlist exists and is non-empty. -/
def play (s : AppState) (item : AssignedItem) : AppState :=
  match item.type with
  | AType.audio =>
    let s1 := s.playAudio item.id none none
    { s1 with playbackStatus := { s1.playbackStatus with
        currentItem := some item
        currentPlaylistId := none
        currentPlaylistIndex := 0 } }
  | AType.playlist =>
    match s.playlists.find? (fun p => p.id == item.id) with
    | none => s
    | some playlist =>
      match playlist.items with
      | [] => s
      | first :: _ =>
        let s1 := s.playAudio first.audioId (some playlist.id) (some 0)
        { s1 with playbackStatus := { s1.playbackStatus with
            currentItem := some item } }

/-- `stop()`: halt and zero the engine, and reset every session field to its
idle default except `loop`. -/
def stop (s : AppState) : AppState :=
  let player := (s.player.stop).1
  { s with
      player := player
      playbackStatus := {
        isPlaying := false
        currentItem := none
        currentAudioId := none
        elapsedTime := 0
        currentPlaylistId := none
        currentPlaylistIndex := 0
        loop := s.playbackStatus.loop } }

/-- `handleAudioEnded`: the completion handler.  With a truthy playlist id and
an existing playlist it advances, wraps when looping, or stops; otherwise it
falls through to the single-clip branch (restart when looping, else stop). -/
def handleAudioEnded (s : AppState) : AppState :=
  let st := s.playbackStatus
  let single : AppState :=
    if st.loop && jsTruthyStr st.currentAudioId then
      s.playAudio (st.currentAudioId.getD "") none none
    else
      s.stop
  if jsTruthyStr st.currentPlaylistId then
    let pid := st.currentPlaylistId.getD ""
    match s.playlists.find? (fun p => p.id == pid) with
    | some playlist =>
      if st.currentPlaylistIndex < playlist.items.length - 1 then
        let nextIndex := st.currentPlaylistIndex + 1
        match playlist.items.get? nextIndex with
        | some it => s.playAudio it.audioId (some pid) (some nextIndex)
        | none => s
      else if st.loop then
        match playlist.items.get? 0 with
        | some it => s.playAudio it.audioId (some pid) (some 0)
        | none => s
      else
        s.stop
    | none => single
  else
    single

/-- `next()`: only with a truthy playlist id and an existing playlist, and
only below the last index, jump to index `i+1` and start its clip. -/
def next (s : AppState) : AppState :=
  let st := s.playbackStatus
  if jsTruthyStr st.currentPlaylistId then
    let pid := st.currentPlaylistId.getD ""
    match s.playlists.find? (fun p => p.id == pid) with
    | some playlist =>
      if st.currentPlaylistIndex < playlist.items.length - 1 then
        let nextIndex := st.currentPlaylistIndex + 1
        match playlist.items.get? nextIndex with
        | some it => s.playAudio it.audioId (some pid) (some nextIndex)
        | none => s
      else s
    | none => s
  else s

/-- `previous()`: only with a truthy playlist id and an existing playlist, and
only above index 0, jump to index `i-1` and start its clip. -/
def previous (s : AppState) : AppState :=
  let st := s.playbackStatus
  if jsTruthyStr st.currentPlaylistId then
    let pid := st.currentPlaylistId.getD ""
    match s.playlists.find? (fun p => p.id == pid) with
    | some playlist =>
      if st.currentPlaylistIndex > 0 then
        let prevIndex := st.currentPlaylistIndex - 1
        match playlist.items.get? prevIndex with
        | some it => s.playAudio it.audioId (some pid) (some prevIndex)
        | none => s
      else s
    | none => s
  else s

/-- `deleteAudioFile(id)`: clear matching audio hotkey assignments, drop the
clip from every playlist and from the clip store, and stop playback when the
deleted clip is the active one. -/
def deleteAudioFile (s : AppState) (id : String) : AppState :=
  let hotkeys := s.hotkeys.map (fun hk =>
    match hk.assignedItem with
    | some ai =>
      if ai.type = AType.audio ∧ ai.id = id then { hk with assignedItem := none } else hk
    | none => hk)
  let playlists := s.playlists.map (fun pl =>
    { pl with items := pl.items.filter (fun it => it.audioId ≠ id) })
  let audioFiles := s.audioFiles.filter (fun a => a.id ≠ id)
  let s1 := { s with hotkeys := hotkeys, playlists := playlists, audioFiles := audioFiles }
  if s.playbackStatus.currentAudioId = some id then s1.stop else s1

/-- `Partial<AudioFile>` as handed to `updateAudioFile`: an absent outer layer
means the field is not part of the update. -/
structure AudioFileUpdate where
  id : Option String := none
  name : Option String := none
  src : Option String := none
  duration : Option ℚ := none
  volume : Option ℚ := none
  type : Option String := none
  trimHead : Option (Option ℚ) := none
  trimTail : Option (Option ℚ) := none
deriving DecidableEq, Repr

/-- The object spread `{ ...audio, ...updates }`. -/
def mergeAudioFile (a : AudioFile) (u : AudioFileUpdate) : AudioFile :=
  { id := u.id.getD a.id
    name := u.name.getD a.name
    src := u.src.getD a.src
    duration := u.duration.getD a.duration
    volume := u.volume.getD a.volume
    type := u.type.getD a.type
    trimHead := u.trimHead.getD a.trimHead
    trimTail := u.trimTail.getD a.trimTail }

/-- `updateAudioFile(id, updates)`: unconditional partial-field merge on the
matching clip; no clamping is applied. -/
def updateAudioFile (s : AppState) (id : String) (u : AudioFileUpdate) : AppState :=
  { s with audioFiles := s.audioFiles.map (fun a => if a.id == id then mergeAudioFile a u else a) }

/-- The clamp applied by `setHeadTrim`:
`Math.max(0, Math.min(seconds, audio.duration - (audio.trimTail || 0) - 0.1))`. -/
def clampHead (a : AudioFile) (seconds : ℚ) : ℚ :=
  max 0 (min seconds (a.duration - orZero a.trimTail - 1/10))

/-- The clamp applied by `setTailTrim`:
`Math.max(0, Math.min(seconds, audio.duration - (audio.trimHead || 0) - 0.1))`. -/
def clampTail (a : AudioFile) (seconds : ℚ) : ℚ :=
  max 0 (min seconds (a.duration - orZero a.trimHead - 1/10))

/-- `setHeadTrim(audioId, seconds)`: clamp and store the new head trim; when
the edited clip is the active one and the engine's position is before the new
head trim, seek forward to it. -/
def setHeadTrim (s : AppState) (audioId : String) (seconds : ℚ) : AppState :=
  let audioFiles := s.audioFiles.map (fun a =>
    if a.id == audioId then { a with trimHead := some (clampHead a seconds) } else a)
  let s1 := { s with audioFiles := audioFiles }
  if s.playbackStatus.currentAudioId = some audioId then
    match s.audioFiles.find? (fun a => a.id == audioId) with
    | some audio =>
      let newHeadTrim := clampHead audio seconds
      if s1.player.currentTime < newHeadTrim then
        { s1 with player := s1.player.setCurrentTime newHeadTrim }
      else s1
    | none => s1
  else s1

/-- `setTailTrim(audioId, seconds)`: clamp and store the new tail trim; when
the edited clip is the active one, write the new tail trim and the duration
into the running engine without touching output. -/
def setTailTrim (s : AppState) (audioId : String) (seconds : ℚ) : AppState :=
  let audioFiles := s.audioFiles.map (fun a =>
    if a.id == audioId then { a with trimTail := some (clampTail a seconds) } else a)
  let s1 := { s with audioFiles := audioFiles }
  if s.playbackStatus.currentAudioId = some audioId then
    match s.audioFiles.find? (fun a => a.id == audioId) with
    | some audio =>
      let newTailTrim := clampTail audio seconds
      { s1 with player := { s1.player with
          currentTailTrim := newTailTrim
          currentDuration := audio.duration } }
    | none => s1
  else s1

end AppState

/-- The idle session state produced by `stop()` with a given retained loop
flag. -/
def idleStatus (loop : Bool) : PlaybackStatus :=
  { isPlaying := false
    currentItem := none
    currentAudioId := none
    elapsedTime := 0
    currentPlaylistId := none
    currentPlaylistIndex := 0
    loop := loop }

/-- The trim-window invariant of a clip. -/
def trimOk (a : AudioFile) : Prop :=
  0 ≤ orZero a.trimHead ∧ 0 ≤ orZero a.trimTail ∧
    orZero a.trimHead + orZero a.trimTail ≤ a.duration - 1/10

instance (a : AudioFile) : Decidable (trimOk a) := by
  unfold trimOk
  infer_instance

/-! ### Claim C6: postcondition of `stop()` -/

/-- C6.  From every session state, `stop()` moves the session to its idle
defaults — `isPlaying` false, active item/clip/playlist cleared, elapsed time
0, playlist index 0 — while keeping `loopEnabled`; the stores are untouched,
the engine is halted with its position reset to zero, and the engine's `stop`
raises no event, in particular no completion event. -/
theorem c6_stop_postcondition (s : AppState) :
    (s.stop).playbackStatus = idleStatus s.playbackStatus.loop ∧
    (s.stop).playbackStatus.loop = s.playbackStatus.loop ∧
    (s.stop).audioFiles = s.audioFiles ∧
    (s.stop).hotkeys = s.hotkeys ∧
    (s.stop).playlists = s.playlists ∧
    (s.stop).player = { s.player with paused := true, currentTime := 0 } ∧
    (s.player.stop).2 = [] :=
  ⟨rfl, rfl, rfl, rfl, rfl, rfl, rfl⟩

/-! ### Claim C4: engine start offset and tail watch -/

/-- C4.  Starting a clip begins output at the head-trim offset with the tail
trim and total duration armed; a time-progress tick at or past
`totalDuration - tailBoundary` (with a positive boundary) stops output and
raises exactly one completion event, and a tick before the boundary raises
none. -/
theorem c4_engine_start_and_tail_watch :
    (∀ (s : AppState) (audioId : String) (af : AudioFile),
      s.audioFiles.find? (fun a => a.id == audioId) = some af →
      (s.playAudio audioId none none).player =
        { src := af.src
          volume := af.volume
          currentTime := orZero af.trimHead
          currentTailTrim := orZero af.trimTail
          currentDuration := af.duration
          paused := false }) ∧
    (∀ (p : AudioPlayerState) (t : ℚ),
      p.currentTailTrim > 0 → t ≥ p.currentDuration - p.currentTailTrim →
      p.tick t = ({ p with currentTime := 0, paused := true },
        [EngineEvent.timeUpdate t, EngineEvent.ended])) ∧
    (∀ (p : AudioPlayerState) (t : ℚ),
      ¬ (p.currentTailTrim > 0 ∧ t ≥ p.currentDuration - p.currentTailTrim) →
      p.tick t = ({ p with currentTime := t }, [EngineEvent.timeUpdate t])) := by
  refine ⟨?_, ?_, ?_⟩
  · intro s audioId af hfind
    unfold AppState.playAudio
    rw [hfind]
    rfl
  · intro p t h1 h2
    unfold AudioPlayerState.tick
    rw [if_pos ⟨h1, h2⟩]
    rfl
  · intro p t h
    unfold AudioPlayerState.tick
    rw [if_neg h]

/-- The scenario-A player: duration 10, tail trim 1, started at the head-trim
offset 2. -/
def playerC4 : AudioPlayerState :=
  { src := "c1", volume := 1, currentTime := 2, currentTailTrim := 1,
    currentDuration := 10, paused := false }

/-- The scenario-A clip: duration 10, head trim 2, tail trim 1. -/
def fileC4 : AudioFile :=
  { id := "c1", name := "c1", src := "c1", duration := 10,
    volume := 1, type := "audio/mpeg", trimHead := some 2, trimTail := some 1 }

/-- The scenario-A state: one clip of duration 10 with head trim 2 and tail
trim 1. -/
def stateC4 : AppState :=
  { audioFiles := [fileC4],
    hotkeys := [],
    playlists := [],
    playbackStatus := idleStatus false,
    player := {
      src := ""
      volume := 1
      currentTime := 0
      currentTailTrim := 0
      currentDuration := 0
      paused := true } }

/-- C4 witness (scenario A): playback of the 10s clip with trims 2/1 starts at
output time 2; the tick at output time 9 stops output and raises exactly one
completion event; the tick at output time 8.5 raises none. -/
theorem c4_witness :
    (stateC4.playAudio "c1" none none).player =
      { src := "c1", volume := 1, currentTime := 2, currentTailTrim := 1,
        currentDuration := 10, paused := false } ∧
    playerC4.tick 9 = ({ playerC4 with currentTime := 0, paused := true },
      [EngineEvent.timeUpdate 9, EngineEvent.ended]) ∧
    playerC4.tick (17/2) = ({ playerC4 with currentTime := 17/2 },
      [EngineEvent.timeUpdate (17/2)]) := by
  refine ⟨c4_engine_start_and_tail_watch.1 stateC4 "c1" fileC4 (by simp [stateC4, fileC4]), ?_, ?_⟩
  · exact c4_engine_start_and_tail_watch.2.1 playerC4 9 (by norm_num [playerC4])
      (by norm_num [playerC4])
  · exact c4_engine_start_and_tail_watch.2.2 playerC4 (17/2)
      (by norm_num [playerC4])

/-! ### Claim C9: playing an empty playlist is a no-op -/

/-- C9.  `play` on a playlist item whose playlist exists but has zero items
leaves the whole state — session fields, stores and engine — unchanged. -/
theorem c9_play_empty_playlist (s : AppState) (item : AssignedItem) (pl : Playlist)
    (htype : item.type = AType.playlist)
    (hfind : s.playlists.find? (fun p => p.id == item.id) = some pl)
    (hempty : pl.items = []) :
    s.play item = s := by
  obtain ⟨ty, id⟩ := item
  cases htype
  unfold AppState.play
  simp only [hfind, hempty]

/-- The C9 empty playlist. -/
def playlistC9 : Playlist :=
  { id := "p1", name := "empty", items := [], playbackMode := "follow-on" }

/-- The C9 witness state: a library with one clip and one empty playlist,
with a non-idle session. -/
def stateC9 : AppState :=
  { audioFiles := [{
      id := "a1"
      name := "a1"
      src := "a1"
      duration := 5
      volume := 1
      type := "audio/mpeg"
      trimHead := none
      trimTail := none }],
    hotkeys := [],
    playlists := [playlistC9],
    playbackStatus := {
      isPlaying := true
      currentItem := some { type := AType.audio, id := "a1" }
      currentAudioId := some "a1"
      elapsedTime := 3
      currentPlaylistId := none
      currentPlaylistIndex := 0
      loop := true },
    player := {
      src := "a1"
      volume := 1
      currentTime := 3
      currentTailTrim := 0
      currentDuration := 5
      paused := false } }

/-- C9 witness: playing the empty playlist `p1` leaves the concrete state
unchanged. -/
theorem c9_witness :
    stateC9.play { type := AType.playlist, id := "p1" } = stateC9 :=
  c9_play_empty_playlist stateC9 { type := AType.playlist, id := "p1" } playlistC9
    rfl (by simp [stateC9, playlistC9]) rfl

/-! ### Claim C3: clip-deletion cascade -/

/-- C3.  Deleting a clip removes every playlist item referencing it from every
playlist, clears every audio hotkey assignment targeting it, removes it from
the clip store, and, when it is the active clip, moves the session to the
idle state (with `loop` retained). -/
theorem c3_delete_cascade (s : AppState) (id : String) :
    (∀ pl ∈ (s.deleteAudioFile id).playlists, ∀ it ∈ pl.items, it.audioId ≠ id) ∧
    (∀ hk ∈ (s.deleteAudioFile id).hotkeys, ∀ ai, hk.assignedItem = some ai →
      ¬ (ai.type = AType.audio ∧ ai.id = id)) ∧
    (∀ a ∈ (s.deleteAudioFile id).audioFiles, a.id ≠ id) ∧
    (s.playbackStatus.currentAudioId = some id →
      (s.deleteAudioFile id).playbackStatus = idleStatus s.playbackStatus.loop) := by
  have hpl : ∀ pl ∈ (s.deleteAudioFile id).playlists, ∀ it ∈ pl.items, it.audioId ≠ id := by
    intro pl hpl it hit
    unfold AppState.deleteAudioFile at hpl
    by_cases hcur : s.playbackStatus.currentAudioId = some id
    all_goals simp only [hcur, if_pos, if_neg, AppState.stop, not_false_eq_true,
      List.mem_map] at hpl
    all_goals obtain ⟨pl0, _, rfl⟩ := hpl
    all_goals simp only [List.mem_filter, decide_eq_true_eq] at hit
    all_goals exact hit.2
  have hhk : ∀ hk ∈ (s.deleteAudioFile id).hotkeys, ∀ ai, hk.assignedItem = some ai →
      ¬ (ai.type = AType.audio ∧ ai.id = id) := by
    intro hk hmem ai hai
    unfold AppState.deleteAudioFile at hmem
    by_cases hcur : s.playbackStatus.currentAudioId = some id
    all_goals simp only [hcur, if_pos, if_neg, AppState.stop, not_false_eq_true,
      List.mem_map] at hmem
    all_goals obtain ⟨hk0, _, rfl⟩ := hmem
    all_goals cases hhk0 : hk0.assignedItem with
      | none =>
          simp only [hhk0] at hai
          cases hai
      | some ai0 =>
          simp only [hhk0] at hai
          by_cases hx : ai0.type = AType.audio ∧ ai0.id = id
          · rw [if_pos hx] at hai
            cases hai
          · rw [if_neg hx] at hai
            rw [hhk0] at hai
            simp only [Option.some.injEq] at hai
            subst hai
            exact hx
  have haf : ∀ a ∈ (s.deleteAudioFile id).audioFiles, a.id ≠ id := by
    intro a ha
    unfold AppState.deleteAudioFile at ha
    by_cases hcur : s.playbackStatus.currentAudioId = some id
    all_goals simp only [hcur, if_pos, if_neg, AppState.stop, not_false_eq_true,
      List.mem_filter, decide_eq_true_eq] at ha
    all_goals exact ha.2
  refine ⟨hpl, hhk, haf, ?_⟩
  intro hcur
  unfold AppState.deleteAudioFile
  rw [if_pos hcur]
  rfl

/-- The C3 witness clip store: two clips. -/
def stateC3 : AppState :=
  { audioFiles := [
      { id := "a1", name := "a1", src := "a1", duration := 5, volume := 1,
        type := "audio/mpeg", trimHead := none, trimTail := none },
      { id := "a2", name := "a2", src := "a2", duration := 6, volume := 1,
        type := "audio/mpeg", trimHead := none, trimTail := none }],
    hotkeys := [
      { id := "hotkey-1-1", bankId := 1, position := 1,
        assignedItem := some { type := AType.audio, id := "a1" } },
      { id := "hotkey-1-2", bankId := 1, position := 2,
        assignedItem := some { type := AType.playlist, id := "p1" } }],
    playlists := [{
      id := "p1"
      name := "p1"
      items := [{ id := "i1", audioId := "a1" }, { id := "i2", audioId := "a2" },
        { id := "i3", audioId := "a1" }]
      playbackMode := "follow-on" }],
    playbackStatus := {
      isPlaying := true
      currentItem := some { type := AType.audio, id := "a1" }
      currentAudioId := some "a1"
      elapsedTime := 2
      currentPlaylistId := none
      currentPlaylistIndex := 0
      loop := true },
    player := {
      src := "a1"
      volume := 1
      currentTime := 2
      currentTailTrim := 0
      currentDuration := 5
      paused := false } }

/-- C3 witness: deleting the active clip `a1` — referenced twice by the
playlist and once by a hotkey — removes all references, drops the clip, and
idles the session while keeping `loop`. -/
theorem c3_witness :
    (∀ pl ∈ (stateC3.deleteAudioFile "a1").playlists, ∀ it ∈ pl.items, it.audioId ≠ "a1") ∧
    (∀ hk ∈ (stateC3.deleteAudioFile "a1").hotkeys, ∀ ai, hk.assignedItem = some ai →
      ¬ (ai.type = AType.audio ∧ ai.id = "a1")) ∧
    (∀ a ∈ (stateC3.deleteAudioFile "a1").audioFiles, a.id ≠ "a1") ∧
    (stateC3.deleteAudioFile "a1").playbackStatus = idleStatus true := by
  obtain ⟨h1, h2, h3, h4⟩ := c3_delete_cascade stateC3 "a1"
  exact ⟨h1, h2, h3, h4 rfl⟩

/-! ### Claim C2: trim-window invariant (corrected) -/

/-- The C2 counterexample clip: duration 10, both trims 0. -/
def fileC2 : AudioFile :=
  { id := "a1", name := "a1", src := "a1", duration := 10, volume := 1,
    type := "audio/mpeg", trimHead := some 0, trimTail := some 0 }

/-- The C2 counterexample state. -/
def stateC2 : AppState :=
  { audioFiles := [fileC2],
    hotkeys := [],
    playlists := [],
    playbackStatus := idleStatus false,
    player := {
      src := ""
      volume := 1
      currentTime := 0
      currentTailTrim := 0
      currentDuration := 0
      paused := true } }

/-- C2 counterexample: `updateAudioFile` is a trim-mutation path that does not
clamp — requesting `trimHead := 100` on a clip of duration 10 leaves a clip
violating `headTrim + tailTrim ≤ totalDuration − 0.1` in the store. -/
theorem c2_counterexample :
    ¬ (∀ a ∈ (stateC2.updateAudioFile "a1" { trimHead := some (some 100) }).audioFiles,
        trimOk a) := by
  intro h
  have hmem : AppState.mergeAudioFile fileC2 { trimHead := some (some 100) } ∈
      (stateC2.updateAudioFile "a1" { trimHead := some (some 100) }).audioFiles := by
    simp [AppState.updateAudioFile, stateC2, fileC2]
  have := h _ hmem
  simp only [trimOk, AppState.mergeAudioFile, fileC2, orZero] at this
  norm_num at this

/-- C2 amended.  The dedicated trim mutators `setHeadTrim` and `setTailTrim`
do preserve the invariant for every clip by clamping the requested value into
range (never rejecting); the generic `updateAudioFile` merge, however, applies
trim updates unclamped and so does not enforce the invariant. -/
theorem c2_amended_trim_clamped (s : AppState) (audioId : String) (v : ℚ)
    (hinv : ∀ a ∈ s.audioFiles, trimOk a) :
    (∀ a ∈ (s.setHeadTrim audioId v).audioFiles, trimOk a) ∧
    (∀ a ∈ (s.setTailTrim audioId v).audioFiles, trimOk a) := by
  have hHeadFiles : (s.setHeadTrim audioId v).audioFiles =
      s.audioFiles.map (fun a =>
        if a.id == audioId then { a with trimHead := some (AppState.clampHead a v) } else a) := by
    unfold AppState.setHeadTrim
    split
    · split
      · dsimp only
        split
        · rfl
        · rfl
      · rfl
    · rfl
  have hTailFiles : (s.setTailTrim audioId v).audioFiles =
      s.audioFiles.map (fun a =>
        if a.id == audioId then { a with trimTail := some (AppState.clampTail a v) } else a) := by
    unfold AppState.setTailTrim
    split
    · split
      · rfl
      · rfl
    · rfl
  constructor
  · intro a ha
    rw [hHeadFiles] at ha
    simp only [List.mem_map] at ha
    obtain ⟨a0, ha0, rfl⟩ := ha
    have h0 := hinv a0 ha0
    obtain ⟨hh, ht, hs⟩ := h0
    by_cases hid : a0.id == audioId
    · rw [if_pos hid]
      refine ⟨?_, ht, ?_⟩
      · exact le_max_left 0 _
      · show AppState.clampHead a0 v + orZero a0.trimTail ≤ a0.duration - 1/10
        have hle : AppState.clampHead a0 v ≤ a0.duration - orZero a0.trimTail - 1/10 := by
          apply max_le
          · linarith
          · exact min_le_right _ _
        linarith
    · rw [if_neg hid]
      exact ⟨hh, ht, hs⟩
  · intro a ha
    rw [hTailFiles] at ha
    simp only [List.mem_map] at ha
    obtain ⟨a0, ha0, rfl⟩ := ha
    have h0 := hinv a0 ha0
    obtain ⟨hh, ht, hs⟩ := h0
    by_cases hid : a0.id == audioId
    · rw [if_pos hid]
      refine ⟨hh, ?_, ?_⟩
      · exact le_max_left 0 _
      · show orZero a0.trimHead + AppState.clampTail a0 v ≤ a0.duration - 1/10
        have hle : AppState.clampTail a0 v ≤ a0.duration - orZero a0.trimHead - 1/10 := by
          apply max_le
          · linarith
          · exact min_le_right _ _
        linarith
    · rw [if_neg hid]
      exact ⟨hh, ht, hs⟩

/-- The C2 amended-witness state: one clip, duration 10, trims 1 and 2. -/
def stateC2w : AppState :=
  { audioFiles := [{
      id := "a1"
      name := "a1"
      src := "a1"
      duration := 10
      volume := 1
      type := "audio/mpeg"
      trimHead := some 1
      trimTail := some 2 }],
    hotkeys := [],
    playlists := [],
    playbackStatus := idleStatus false,
    player := {
      src := ""
      volume := 1
      currentTime := 0
      currentTailTrim := 0
      currentDuration := 0
      paused := true } }

/-- C2 amended witness: requesting a head trim of 100 and a tail trim of 100
on the 10s clip through the clamping mutators keeps the invariant. -/
theorem c2_amended_witness :
    (∀ a ∈ (stateC2w.setHeadTrim "a1" 100).audioFiles, trimOk a) ∧
    (∀ a ∈ (stateC2w.setTailTrim "a1" 100).audioFiles, trimOk a) :=
  c2_amended_trim_clamped stateC2w "a1" 100 (by
    intro a ha
    simp only [stateC2w, List.mem_singleton] at ha
    subst ha
    constructor
    · norm_num [orZero]
    constructor
    · norm_num [orZero]
    · norm_num [orZero])

/-! ### Shared characterizations of `playAudio` -/

/-- When the clip exists, `playAudio` starts the engine at the head-trim
offset with the tail trim armed and records the new session fields. -/
theorem playAudio_found (s : AppState) (audioId : String) (af : AudioFile)
    (pid : Option String) (idx : Option Nat)
    (hfind : s.audioFiles.find? (fun a => a.id == audioId) = some af) :
    s.playAudio audioId pid idx =
      { s with
          player := { s.player with
            src := af.src
            volume := af.volume
            currentTime := orZero af.trimHead
            currentTailTrim := orZero af.trimTail
            currentDuration := af.duration
            paused := false },
          playbackStatus := { s.playbackStatus with
            isPlaying := true
            currentAudioId := some audioId
            elapsedTime := orZero af.trimHead
            currentPlaylistId := jsOrNull pid
            currentPlaylistIndex := idx.getD 0 } } := by
  unfold AppState.playAudio
  rw [hfind]
  rfl

/-- When the clip id is absent from the store, `playAudio` is the identity. -/
theorem playAudio_missing (s : AppState) (audioId : String)
    (pid : Option String) (idx : Option Nat)
    (hfind : s.audioFiles.find? (fun a => a.id == audioId) = none) :
    s.playAudio audioId pid idx = s := by
  unfold AppState.playAudio
  rw [hfind]

/-! ### Claim C5: live retrim of the active clip -/

/-- C5.  Editing the trims of the session's active clip updates the running
engine in place: `setTailTrim` writes the new (clamped) tail boundary and the
duration into the engine without pausing, seeking or reloading; `setHeadTrim`
moves the output position forward to the new head trim exactly when the
current position is before it, and never moves it backward. -/
theorem c5_live_retrim (s : AppState) (audioId : String) (v : ℚ) (af : AudioFile)
    (hcur : s.playbackStatus.currentAudioId = some audioId)
    (hfind : s.audioFiles.find? (fun a => a.id == audioId) = some af) :
    ((s.setTailTrim audioId v).player.currentTailTrim = AppState.clampTail af v ∧
     (s.setTailTrim audioId v).player.currentDuration = af.duration ∧
     (s.setTailTrim audioId v).player.paused = s.player.paused ∧
     (s.setTailTrim audioId v).player.currentTime = s.player.currentTime ∧
     (s.setTailTrim audioId v).player.src = s.player.src) ∧
    ((s.setHeadTrim audioId v).player.currentTime =
       (if s.player.currentTime < AppState.clampHead af v
        then AppState.clampHead af v else s.player.currentTime) ∧
     s.player.currentTime ≤ (s.setHeadTrim audioId v).player.currentTime ∧
     (s.setHeadTrim audioId v).player.paused = s.player.paused ∧
     (s.setHeadTrim audioId v).player.currentTailTrim = s.player.currentTailTrim ∧
     (s.setHeadTrim audioId v).player.currentDuration = s.player.currentDuration ∧
     (s.setHeadTrim audioId v).player.src = s.player.src) := by
  have hTail : (s.setTailTrim audioId v).player =
      { s.player with
          currentTailTrim := AppState.clampTail af v
          currentDuration := af.duration } := by
    unfold AppState.setTailTrim
    rw [if_pos hcur, hfind]
  have hHead : (s.setHeadTrim audioId v).player =
      (if s.player.currentTime < AppState.clampHead af v
       then s.player.setCurrentTime (AppState.clampHead af v) else s.player) := by
    unfold AppState.setHeadTrim
    rw [if_pos hcur, hfind]
    dsimp only
    by_cases hc : s.player.currentTime < AppState.clampHead af v
    · rw [if_pos hc, if_pos hc]
    · rw [if_neg hc, if_neg hc]
  refine ⟨⟨by rw [hTail], by rw [hTail], by rw [hTail], by rw [hTail], by rw [hTail]⟩,
    ?_, ?_, ?_, ?_, ?_, ?_⟩
  · rw [hHead]
    by_cases hc : s.player.currentTime < AppState.clampHead af v
    · rw [if_pos hc, if_pos hc]
      rfl
    · rw [if_neg hc, if_neg hc]
  · rw [hHead]
    by_cases hc : s.player.currentTime < AppState.clampHead af v
    · rw [if_pos hc]
      exact le_of_lt hc
    · rw [if_neg hc]
  · rw [hHead]
    by_cases hc : s.player.currentTime < AppState.clampHead af v
    · rw [if_pos hc]
      rfl
    · rw [if_neg hc]
  · rw [hHead]
    by_cases hc : s.player.currentTime < AppState.clampHead af v
    · rw [if_pos hc]
      rfl
    · rw [if_neg hc]
  · rw [hHead]
    by_cases hc : s.player.currentTime < AppState.clampHead af v
    · rw [if_pos hc]
      rfl
    · rw [if_neg hc]
  · rw [hHead]
    by_cases hc : s.player.currentTime < AppState.clampHead af v
    · rw [if_pos hc]
      rfl
    · rw [if_neg hc]

/-- The C5 witness clip: duration 10, head trim 2, tail trim 1. -/
def fileC5 : AudioFile :=
  { id := "a1", name := "a1", src := "a1", duration := 10, volume := 1,
    type := "audio/mpeg", trimHead := some 2, trimTail := some 1 }

/-- The C5 witness state: the clip is active and the engine is at output time
4. -/
def stateC5 : AppState :=
  { audioFiles := [fileC5],
    hotkeys := [],
    playlists := [],
    playbackStatus := {
      isPlaying := true
      currentItem := some { type := AType.audio, id := "a1" }
      currentAudioId := some "a1"
      elapsedTime := 4
      currentPlaylistId := none
      currentPlaylistIndex := 0
      loop := false },
    player := {
      src := "a1"
      volume := 1
      currentTime := 4
      currentTailTrim := 1
      currentDuration := 10
      paused := false } }

/-- C5 witness: retrimming the active clip live — the tail edit lands in the
running engine without pausing or seeking, and the head edit to 6 (past the
current position 4) seeks forward to 6. -/
theorem c5_witness :
    ((stateC5.setTailTrim "a1" 3).player.currentTailTrim = 3 ∧
     (stateC5.setTailTrim "a1" 3).player.paused = false ∧
     (stateC5.setTailTrim "a1" 3).player.currentTime = 4) ∧
    ((stateC5.setHeadTrim "a1" 6).player.currentTime = 6 ∧
     (4:ℚ) ≤ (stateC5.setHeadTrim "a1" 6).player.currentTime) := by
  obtain ⟨⟨t1, t2, t3, t4, t5⟩, h1, h2, h3, h4, h5, h6⟩ :=
    c5_live_retrim stateC5 "a1" 3 fileC5 rfl (by simp [stateC5, fileC5])
  obtain ⟨⟨u1, u2, u3, u4, u5⟩, g1, g2, g3, g4, g5, g6⟩ :=
    c5_live_retrim stateC5 "a1" 6 fileC5 rfl (by simp [stateC5, fileC5])
  refine ⟨⟨?_, ?_, ?_⟩, ?_, ?_⟩
  · rw [t1]
    norm_num [AppState.clampTail, fileC5, orZero]
  · rw [t3]
    rfl
  · rw [t4]
    rfl
  · rw [g1]
    have hlt : stateC5.player.currentTime < AppState.clampHead fileC5 6 := by
      norm_num [AppState.clampHead, fileC5, orZero, stateC5, min_def, max_def]
    rw [if_pos hlt]
    norm_num [AppState.clampHead, fileC5, orZero, min_def, max_def]
  · exact g2

/-! ### Claim C7: next()/previous() boundary behaviour -/

/-- C7.  `next` and `previous` act only with an active playlist target: with
no playlist id both are the identity; `next` at the last index is a complete
no-op (whatever the loop flag), as is `previous` at index 0; elsewhere they
jump straight to index `i+1` / `i-1` and always start that item's clip
playing (a paused engine is not preserved). -/
theorem c7_next_previous_boundaries (s : AppState) :
    (s.playbackStatus.currentPlaylistId = none → s.next = s ∧ s.previous = s) ∧
    (∀ pid pl, s.playbackStatus.currentPlaylistId = some pid → pid ≠ "" →
      s.playlists.find? (fun p => p.id == pid) = some pl →
      (1 ≤ pl.items.length →
        s.playbackStatus.currentPlaylistIndex = pl.items.length - 1 → s.next = s) ∧
      (s.playbackStatus.currentPlaylistIndex = 0 → s.previous = s) ∧
      (∀ it af, s.playbackStatus.currentPlaylistIndex < pl.items.length - 1 →
        pl.items.get? (s.playbackStatus.currentPlaylistIndex + 1) = some it →
        s.audioFiles.find? (fun a => a.id == it.audioId) = some af →
        (s.next).playbackStatus.isPlaying = true ∧
        (s.next).player.paused = false ∧
        (s.next).playbackStatus.currentAudioId = some it.audioId ∧
        (s.next).playbackStatus.currentPlaylistId = some pid ∧
        (s.next).playbackStatus.currentPlaylistIndex =
          s.playbackStatus.currentPlaylistIndex + 1 ∧
        (s.next).playbackStatus.elapsedTime = orZero af.trimHead) ∧
      (∀ it af, 0 < s.playbackStatus.currentPlaylistIndex →
        pl.items.get? (s.playbackStatus.currentPlaylistIndex - 1) = some it →
        s.audioFiles.find? (fun a => a.id == it.audioId) = some af →
        (s.previous).playbackStatus.isPlaying = true ∧
        (s.previous).player.paused = false ∧
        (s.previous).playbackStatus.currentAudioId = some it.audioId ∧
        (s.previous).playbackStatus.currentPlaylistId = some pid ∧
        (s.previous).playbackStatus.currentPlaylistIndex =
          s.playbackStatus.currentPlaylistIndex - 1 ∧
        (s.previous).playbackStatus.elapsedTime = orZero af.trimHead)) := by
  constructor
  · intro hnone
    constructor
    · unfold AppState.next
      dsimp only
      rw [hnone]
      rfl
    · unfold AppState.previous
      dsimp only
      rw [hnone]
      rfl
  · intro pid pl hpid hne hfind
    have htruthy : jsTruthyStr (s.playbackStatus.currentPlaylistId) = true := by
      rw [hpid]
      simp [jsTruthyStr, hne]
    refine ⟨?_, ?_, ?_, ?_⟩
    · intro hlen hidx
      unfold AppState.next
      dsimp only
      rw [if_pos htruthy, hpid]
      simp only [Option.getD_some]
      rw [hfind]
      dsimp only
      rw [hidx, if_neg (lt_irrefl _)]
    · intro hidx
      unfold AppState.previous
      dsimp only
      rw [if_pos htruthy, hpid]
      simp only [Option.getD_some]
      rw [hfind]
      dsimp only
      rw [hidx]
      rfl
    · intro it af hlt hget haf
      have hnext : s.next = s.playAudio it.audioId (some pid)
          (some (s.playbackStatus.currentPlaylistIndex + 1)) := by
        unfold AppState.next
        dsimp only
        rw [if_pos htruthy, hpid]
        simp only [Option.getD_some]
        rw [hfind]
        dsimp only
        rw [if_pos hlt, hget]
      rw [hnext, playAudio_found s it.audioId af _ _ haf]
      simp [jsOrNull, hne]
    · intro it af hlt hget haf
      have hprev : s.previous = s.playAudio it.audioId (some pid)
          (some (s.playbackStatus.currentPlaylistIndex - 1)) := by
        unfold AppState.previous
        dsimp only
        rw [if_pos htruthy, hpid]
        simp only [Option.getD_some]
        rw [hfind]
        dsimp only
        rw [if_pos hlt, hget]
      rw [hprev, playAudio_found s it.audioId af _ _ haf]
      simp [jsOrNull, hne]

/-- The C7 witness clip `a2`. -/
def fileC7a2 : AudioFile :=
  { id := "a2", name := "a2", src := "a2", duration := 6, volume := 1,
    type := "audio/mpeg", trimHead := none, trimTail := none }

/-- The C7 witness files. -/
def filesC7 : List AudioFile :=
  [{ id := "a1", name := "a1", src := "a1", duration := 5, volume := 1,
     type := "audio/mpeg", trimHead := some 1, trimTail := none },
   fileC7a2]

/-- The C7 witness playlist of two items. -/
def playlistC7 : Playlist :=
  { id := "p1", name := "p1",
    items := [{ id := "i1", audioId := "a1" }, { id := "i2", audioId := "a2" }],
    playbackMode := "follow-on" }

/-- A C7 state playing playlist `p1` at a given index with a paused engine and
the loop flag set. -/
def stateC7 (idx : Nat) : AppState :=
  { audioFiles := filesC7,
    hotkeys := [],
    playlists := [playlistC7],
    playbackStatus := {
      isPlaying := false
      currentItem := some { type := AType.playlist, id := "p1" }
      currentAudioId := some "a1"
      elapsedTime := 2
      currentPlaylistId := some "p1"
      currentPlaylistIndex := idx
      loop := true },
    player := {
      src := "a1"
      volume := 1
      currentTime := 2
      currentTailTrim := 0
      currentDuration := 5
      paused := true } }

/-- C7 witness: with the two-item playlist active, `next` at the last index 1
is a no-op despite `loop = true`, `previous` at index 0 is a no-op, and from
index 0 `next` jumps to index 1 and starts clip `a2` playing even though the
engine was paused. -/
theorem c7_witness :
    (stateC7 1).next = stateC7 1 ∧
    (stateC7 0).previous = stateC7 0 ∧
    ((stateC7 0).next.playbackStatus.isPlaying = true ∧
     (stateC7 0).next.player.paused = false ∧
     (stateC7 0).next.playbackStatus.currentAudioId = some "a2" ∧
     (stateC7 0).next.playbackStatus.currentPlaylistIndex = 1) := by
  have h1 := c7_next_previous_boundaries (stateC7 1)
  have h0 := c7_next_previous_boundaries (stateC7 0)
  have hfind : (stateC7 1).playlists.find? (fun p => p.id == "p1") = some playlistC7 := by
    simp [stateC7, playlistC7]
  have hfind0 : (stateC7 0).playlists.find? (fun p => p.id == "p1") = some playlistC7 := by
    simp [stateC7, playlistC7]
  obtain ⟨-, hmain1⟩ := h1
  obtain ⟨-, hmain0⟩ := h0
  obtain ⟨hlast, -, -, -⟩ := hmain1 "p1" playlistC7 rfl (by decide) hfind
  obtain ⟨-, hzero, hadv, -⟩ := hmain0 "p1" playlistC7 rfl (by decide) hfind0
  refine ⟨hlast (by simp [playlistC7]) (by rfl), hzero (by rfl), ?_⟩
  have hgot : playlistC7.items.get? (0 + 1) = some { id := "i2", audioId := "a2" } := by
    simp [playlistC7]
  have haf : (stateC7 0).audioFiles.find? (fun a => a.id == "a2") = some fileC7a2 := by
    simp [stateC7, filesC7, fileC7a2]
  obtain ⟨w1, w2, w3, w4, w5, w6⟩ := hadv { id := "i2", audioId := "a2" } fileC7a2
    (by simp [stateC7, playlistC7]) hgot haf
  exact ⟨w1, w2, w3, w5⟩

/-! ### Claim C1: auto-advance / loop state machine on completion -/

/-- C1.  On a completion event: while a playlist is active, below the last
index the session advances by exactly one and starts that item's clip; at the
last index with `loop` it wraps to index 0 and starts that clip; at the last
index without `loop` the session is stopped to idle.  While a single clip is
active, with `loop` the same clip restarts from its head-trim offset, and
without `loop` the session is stopped to idle. -/
theorem c1_completion_state_machine (s : AppState) :
    (∀ pid pl it af, s.playbackStatus.currentPlaylistId = some pid → pid ≠ "" →
      s.playlists.find? (fun p => p.id == pid) = some pl →
      s.playbackStatus.currentPlaylistIndex < pl.items.length - 1 →
      pl.items.get? (s.playbackStatus.currentPlaylistIndex + 1) = some it →
      s.audioFiles.find? (fun a => a.id == it.audioId) = some af →
      (s.handleAudioEnded).playbackStatus.isPlaying = true ∧
      (s.handleAudioEnded).playbackStatus.currentAudioId = some it.audioId ∧
      (s.handleAudioEnded).playbackStatus.currentPlaylistId = some pid ∧
      (s.handleAudioEnded).playbackStatus.currentPlaylistIndex =
        s.playbackStatus.currentPlaylistIndex + 1 ∧
      (s.handleAudioEnded).playbackStatus.elapsedTime = orZero af.trimHead ∧
      (s.handleAudioEnded).player.src = af.src ∧
      (s.handleAudioEnded).player.currentTime = orZero af.trimHead ∧
      (s.handleAudioEnded).player.paused = false) ∧
    (∀ pid pl it af, s.playbackStatus.currentPlaylistId = some pid → pid ≠ "" →
      s.playlists.find? (fun p => p.id == pid) = some pl →
      ¬ s.playbackStatus.currentPlaylistIndex < pl.items.length - 1 →
      s.playbackStatus.loop = true →
      pl.items.get? 0 = some it →
      s.audioFiles.find? (fun a => a.id == it.audioId) = some af →
      (s.handleAudioEnded).playbackStatus.isPlaying = true ∧
      (s.handleAudioEnded).playbackStatus.currentAudioId = some it.audioId ∧
      (s.handleAudioEnded).playbackStatus.currentPlaylistId = some pid ∧
      (s.handleAudioEnded).playbackStatus.currentPlaylistIndex = 0 ∧
      (s.handleAudioEnded).playbackStatus.elapsedTime = orZero af.trimHead ∧
      (s.handleAudioEnded).player.src = af.src ∧
      (s.handleAudioEnded).player.currentTime = orZero af.trimHead ∧
      (s.handleAudioEnded).player.paused = false) ∧
    (∀ pid pl, s.playbackStatus.currentPlaylistId = some pid → pid ≠ "" →
      s.playlists.find? (fun p => p.id == pid) = some pl →
      ¬ s.playbackStatus.currentPlaylistIndex < pl.items.length - 1 →
      s.playbackStatus.loop = false →
      s.handleAudioEnded = s.stop) ∧
    (∀ aid af, s.playbackStatus.currentPlaylistId = none →
      s.playbackStatus.loop = true →
      s.playbackStatus.currentAudioId = some aid → aid ≠ "" →
      s.audioFiles.find? (fun a => a.id == aid) = some af →
      (s.handleAudioEnded).playbackStatus.isPlaying = true ∧
      (s.handleAudioEnded).playbackStatus.currentAudioId = some aid ∧
      (s.handleAudioEnded).playbackStatus.currentPlaylistId = none ∧
      (s.handleAudioEnded).playbackStatus.elapsedTime = orZero af.trimHead ∧
      (s.handleAudioEnded).player.src = af.src ∧
      (s.handleAudioEnded).player.currentTime = orZero af.trimHead ∧
      (s.handleAudioEnded).player.paused = false) ∧
    (s.playbackStatus.currentPlaylistId = none →
      s.playbackStatus.loop = false →
      s.handleAudioEnded = s.stop) := by
  refine ⟨?_, ?_, ?_, ?_, ?_⟩
  · intro pid pl it af hpid hne hfind hlt hget haf
    have htruthy : jsTruthyStr s.playbackStatus.currentPlaylistId = true := by
      rw [hpid]
      simp [jsTruthyStr, hne]
    have hae : s.handleAudioEnded = s.playAudio it.audioId (some pid)
        (some (s.playbackStatus.currentPlaylistIndex + 1)) := by
      unfold AppState.handleAudioEnded
      dsimp only
      rw [if_pos htruthy, hpid]
      simp only [Option.getD_some]
      rw [hfind]
      dsimp only
      rw [if_pos hlt, hget]
    rw [hae, playAudio_found s it.audioId af _ _ haf]
    simp [jsOrNull, hne]
  · intro pid pl it af hpid hne hfind hnlt hloop hget haf
    have htruthy : jsTruthyStr s.playbackStatus.currentPlaylistId = true := by
      rw [hpid]
      simp [jsTruthyStr, hne]
    have hae : s.handleAudioEnded = s.playAudio it.audioId (some pid) (some 0) := by
      unfold AppState.handleAudioEnded
      dsimp only
      rw [if_pos htruthy, hpid]
      simp only [Option.getD_some]
      rw [hfind]
      dsimp only
      rw [if_neg hnlt, hloop]
      simp only [if_true]
      rw [hget]
    rw [hae, playAudio_found s it.audioId af _ _ haf]
    simp [jsOrNull, hne]
  · intro pid pl hpid hne hfind hnlt hloop
    have htruthy : jsTruthyStr s.playbackStatus.currentPlaylistId = true := by
      rw [hpid]
      simp [jsTruthyStr, hne]
    unfold AppState.handleAudioEnded
    dsimp only
    rw [if_pos htruthy, hpid]
    simp only [Option.getD_some]
    rw [hfind]
    dsimp only
    rw [if_neg hnlt, hloop]
    simp only [Bool.false_eq_true, if_false]
  · intro aid af hpid hloop haid hne haf
    have hfalse : jsTruthyStr s.playbackStatus.currentPlaylistId = false := by
      rw [hpid]
      rfl
    have hcond : (s.playbackStatus.loop && jsTruthyStr s.playbackStatus.currentAudioId) = true := by
      rw [hloop, haid]
      simp [jsTruthyStr, hne]
    have hae : s.handleAudioEnded = s.playAudio aid none none := by
      unfold AppState.handleAudioEnded
      dsimp only
      rw [hfalse]
      simp only [Bool.false_eq_true, if_false]
      rw [if_pos hcond, haid]
      simp only [Option.getD_some]
    rw [hae, playAudio_found s aid af _ _ haf]
    simp [jsOrNull]
  · intro hpid hloop
    have hfalse : jsTruthyStr s.playbackStatus.currentPlaylistId = false := by
      rw [hpid]
      rfl
    have hcond : (s.playbackStatus.loop && jsTruthyStr s.playbackStatus.currentAudioId) = false := by
      rw [hloop]
      rfl
    unfold AppState.handleAudioEnded
    dsimp only
    rw [hfalse]
    simp only [Bool.false_eq_true, if_false]
    rw [hcond]
    simp only [Bool.false_eq_true, if_false]

/-- C1 witness playlist of two items over two clips. -/
def playlistC1 : Playlist :=
  { id := "p1", name := "p1",
    items := [{ id := "i1", audioId := "a1" }, { id := "i2", audioId := "a2" }],
    playbackMode := "follow-on" }

/-- C1 witness clips `a1` (head trim 2) and `a2` (head trim 3). -/
def fileC1a1 : AudioFile :=
  { id := "a1", name := "a1", src := "a1", duration := 10, volume := 1,
    type := "audio/mpeg", trimHead := some 2, trimTail := some 1 }

/-- See `fileC1a1`. -/
def fileC1a2 : AudioFile :=
  { id := "a2", name := "a2", src := "a2", duration := 8, volume := 1,
    type := "audio/mpeg", trimHead := some 3, trimTail := none }

/-- A C1 state playing playlist `p1` at index `idx` with loop flag `lp`. -/
def stateC1pl (idx : Nat) (lp : Bool) : AppState :=
  { audioFiles := [fileC1a1, fileC1a2],
    hotkeys := [],
    playlists := [playlistC1],
    playbackStatus := {
      isPlaying := true
      currentItem := some { type := AType.playlist, id := "p1" }
      currentAudioId := some (if idx = 0 then "a1" else "a2")
      elapsedTime := 5
      currentPlaylistId := some "p1"
      currentPlaylistIndex := idx
      loop := lp },
    player := {
      src := "x"
      volume := 1
      currentTime := 5
      currentTailTrim := 0
      currentDuration := 10
      paused := false } }

/-- A C1 state playing the single clip `a1` with loop flag `lp`. -/
def stateC1single (lp : Bool) : AppState :=
  { audioFiles := [fileC1a1, fileC1a2],
    hotkeys := [],
    playlists := [playlistC1],
    playbackStatus := {
      isPlaying := true
      currentItem := some { type := AType.audio, id := "a1" }
      currentAudioId := some "a1"
      elapsedTime := 5
      currentPlaylistId := none
      currentPlaylistIndex := 0
      loop := lp },
    player := {
      src := "a1"
      volume := 1
      currentTime := 5
      currentTailTrim := 1
      currentDuration := 10
      paused := false } }

/-- C1 witness: completion at index 0 of the two-item playlist advances to
index 1 and starts `a2` at its head trim 3; completion at the last index with
loop wraps to index 0 and starts `a1` at its head trim 2; without loop it
stops; single-clip completion with loop restarts `a1` at its head trim; and
without loop it stops. -/
theorem c1_witness :
    ((stateC1pl 0 false).handleAudioEnded.playbackStatus.currentPlaylistIndex = 1 ∧
     (stateC1pl 0 false).handleAudioEnded.playbackStatus.currentAudioId = some "a2" ∧
     (stateC1pl 0 false).handleAudioEnded.player.currentTime = 3) ∧
    ((stateC1pl 1 true).handleAudioEnded.playbackStatus.currentPlaylistIndex = 0 ∧
     (stateC1pl 1 true).handleAudioEnded.playbackStatus.currentAudioId = some "a1" ∧
     (stateC1pl 1 true).handleAudioEnded.player.currentTime = 2) ∧
    (stateC1pl 1 false).handleAudioEnded = (stateC1pl 1 false).stop ∧
    ((stateC1single true).handleAudioEnded.playbackStatus.currentAudioId = some "a1" ∧
     (stateC1single true).handleAudioEnded.player.currentTime = 2 ∧
     (stateC1single true).handleAudioEnded.playbackStatus.isPlaying = true) ∧
    (stateC1single false).handleAudioEnded = (stateC1single false).stop := by
  obtain ⟨adv, wrap, fin, sing, sfin⟩ := c1_completion_state_machine (stateC1pl 0 false)
  obtain ⟨-, wrap1, -, -, -⟩ := c1_completion_state_machine (stateC1pl 1 true)
  obtain ⟨-, -, fin1, -, -⟩ := c1_completion_state_machine (stateC1pl 1 false)
  obtain ⟨-, -, -, sing1, -⟩ := c1_completion_state_machine (stateC1single true)
  obtain ⟨-, -, -, -, sfin1⟩ := c1_completion_state_machine (stateC1single false)
  refine ⟨?_, ?_, ?_, ?_, ?_⟩
  · obtain ⟨w1, w2, w3, w4, w5, w6, w7, w8⟩ := adv "p1" playlistC1
      { id := "i2", audioId := "a2" } fileC1a2 rfl (by decide)
      (by simp [stateC1pl, playlistC1])
      (by simp [stateC1pl, playlistC1])
      (by simp [stateC1pl, playlistC1])
      (by simp [stateC1pl, fileC1a1, fileC1a2])
    exact ⟨w4, w2, w7⟩
  · obtain ⟨w1, w2, w3, w4, w5, w6, w7, w8⟩ := wrap1 "p1" playlistC1
      { id := "i1", audioId := "a1" } fileC1a1 rfl (by decide)
      (by simp [stateC1pl, playlistC1])
      (by simp [stateC1pl, playlistC1])
      (by simp [stateC1pl])
      (by simp [stateC1pl, playlistC1])
      (by simp [stateC1pl, fileC1a1, fileC1a2])
    exact ⟨w4, w2, w7⟩
  · exact fin1 "p1" playlistC1 rfl (by decide) (by simp [stateC1pl, playlistC1])
      (by simp [stateC1pl, playlistC1]) (by simp [stateC1pl])
  · obtain ⟨w1, w2, w3, w4, w5, w6, w7⟩ := sing1 "a1" fileC1a1 rfl
      (by simp [stateC1single]) rfl (by decide)
      (by simp [stateC1single, fileC1a1, fileC1a2])
    exact ⟨w2, w6, w1⟩
  · exact sfin1 rfl (by simp [stateC1single])

/-! ### Claim C8: no-op on invalid target (corrected) -/

/-- The C8 counterexample state: a session playing playlist `p1`, with no
clip whose id is `x` in the store. -/
def stateC8 : AppState :=
  { audioFiles := [],
    hotkeys := [],
    playlists := [{ id := "p1", name := "p1", items := [], playbackMode := "follow-on" }],
    playbackStatus := {
      isPlaying := true
      currentItem := some { type := AType.playlist, id := "p1" }
      currentAudioId := some "a9"
      elapsedTime := 5
      currentPlaylistId := some "p1"
      currentPlaylistIndex := 3
      loop := false },
    player := {
      src := "a9"
      volume := 1
      currentTime := 5
      currentTailTrim := 0
      currentDuration := 9
      paused := false } }

/-- C8 counterexample: `play` of the missing clip id `x` raises no error but
does NOT leave the session unchanged — it clears the active playlist
reference (and resets the playlist index, and overwrites `currentItem`), so
the claim's "leaves the playback session state completely unchanged" fails. -/
theorem c8_counterexample :
    stateC8.audioFiles.find? (fun a => a.id == "x") = none ∧
    stateC8.playbackStatus.currentPlaylistId = some "p1" ∧
    (stateC8.play { type := AType.audio, id := "x" }).playbackStatus.currentPlaylistId = none ∧
    (stateC8.play { type := AType.audio, id := "x" }).playbackStatus ≠ stateC8.playbackStatus := by
  refine ⟨rfl, rfl, rfl, ?_⟩
  intro h
  have hc := congrArg PlaybackStatus.currentPlaylistId h
  rw [show (stateC8.play { type := AType.audio, id := "x" }).playbackStatus.currentPlaylistId
      = none from rfl] at hc
  cases hc

/-- C8 amended.  A playback command whose target is absent raises no error
and leaves the stores and the engine unchanged; `play` of a missing playlist
id and `next`/`previous` with a dangling playlist reference leave the whole
state unchanged; `play` of a missing clip id does not start playback (the
engine, `isPlaying`, `currentAudioId` and `elapsedTime` are untouched) but
still records the requested item as `currentItem` and resets the playlist
reference and index. -/
theorem c8_amended_invalid_target (s : AppState) :
    (∀ id, s.audioFiles.find? (fun a => a.id == id) = none →
      ((s.play { type := AType.audio, id := id }).audioFiles = s.audioFiles ∧
       (s.play { type := AType.audio, id := id }).hotkeys = s.hotkeys ∧
       (s.play { type := AType.audio, id := id }).playlists = s.playlists ∧
       (s.play { type := AType.audio, id := id }).player = s.player ∧
       (s.play { type := AType.audio, id := id }).playbackStatus.isPlaying =
         s.playbackStatus.isPlaying ∧
       (s.play { type := AType.audio, id := id }).playbackStatus.currentAudioId =
         s.playbackStatus.currentAudioId ∧
       (s.play { type := AType.audio, id := id }).playbackStatus.elapsedTime =
         s.playbackStatus.elapsedTime ∧
       (s.play { type := AType.audio, id := id }).playbackStatus.loop =
         s.playbackStatus.loop ∧
       (s.play { type := AType.audio, id := id }).playbackStatus.currentItem =
         some { type := AType.audio, id := id } ∧
       (s.play { type := AType.audio, id := id }).playbackStatus.currentPlaylistId = none ∧
       (s.play { type := AType.audio, id := id }).playbackStatus.currentPlaylistIndex = 0)) ∧
    (∀ id, s.playlists.find? (fun p => p.id == id) = none →
      s.play { type := AType.playlist, id := id } = s) ∧
    (∀ pid, s.playbackStatus.currentPlaylistId = some pid →
      s.playlists.find? (fun p => p.id == pid) = none →
      s.next = s ∧ s.previous = s) := by
  refine ⟨?_, ?_, ?_⟩
  · intro id hfind
    have hplay : s.play { type := AType.audio, id := id } =
        { s with playbackStatus := { s.playbackStatus with
            currentItem := some { type := AType.audio, id := id }
            currentPlaylistId := none
            currentPlaylistIndex := 0 } } := by
      unfold AppState.play
      dsimp only
      rw [playAudio_missing s id none none hfind]
    rw [hplay]
    exact ⟨rfl, rfl, rfl, rfl, rfl, rfl, rfl, rfl, rfl, rfl, rfl⟩
  · intro id hfind
    unfold AppState.play
    dsimp only
    rw [hfind]
  · intro pid hpid hfind
    by_cases hne : pid = ""
    · subst hne
      have hfalse : jsTruthyStr s.playbackStatus.currentPlaylistId = false := by
        rw [hpid]
        rfl
      constructor
      · unfold AppState.next
        dsimp only
        rw [hfalse]
        rfl
      · unfold AppState.previous
        dsimp only
        rw [hfalse]
        rfl
    · have htruthy : jsTruthyStr s.playbackStatus.currentPlaylistId = true := by
        rw [hpid]
        simp [jsTruthyStr, hne]
      constructor
      · unfold AppState.next
        dsimp only
        rw [if_pos htruthy, hpid]
        simp only [Option.getD_some]
        rw [hfind]
      · unfold AppState.previous
        dsimp only
        rw [if_pos htruthy, hpid]
        simp only [Option.getD_some]
        rw [hfind]

/-- A C8 state whose session references playlist `p9`, which is not in the
playlist store. -/
def stateC8dangling : AppState :=
  { audioFiles := [],
    hotkeys := [],
    playlists := [{ id := "p1", name := "p1", items := [], playbackMode := "follow-on" }],
    playbackStatus := {
      isPlaying := true
      currentItem := some { type := AType.playlist, id := "p9" }
      currentAudioId := some "a9"
      elapsedTime := 5
      currentPlaylistId := some "p9"
      currentPlaylistIndex := 0
      loop := false },
    player := {
      src := "a9"
      volume := 1
      currentTime := 5
      currentTailTrim := 0
      currentDuration := 9
      paused := false } }

/-- C8 amended witness: on `stateC8`, playing the missing clip `x` keeps the
stores, engine and playback fields while recording the request; playing the
missing playlist `q` is a complete no-op; and `next`/`previous` with the
dangling playlist reference `p9` are complete no-ops. -/
theorem c8_amended_witness :
    ((stateC8.play { type := AType.audio, id := "x" }).playlists = stateC8.playlists ∧
     (stateC8.play { type := AType.audio, id := "x" }).player = stateC8.player ∧
     (stateC8.play { type := AType.audio, id := "x" }).playbackStatus.isPlaying =
       stateC8.playbackStatus.isPlaying) ∧
    stateC8.play { type := AType.playlist, id := "q" } = stateC8 ∧
    (stateC8dangling.next = stateC8dangling ∧
     stateC8dangling.previous = stateC8dangling) := by
  obtain ⟨ha, hp, hd⟩ := c8_amended_invalid_target stateC8
  obtain ⟨w1, w2, w3, w4, w5, w6, w7, w8, w9, w10, w11⟩ := ha "x" rfl
  obtain ⟨hda, hpd, hdd⟩ := c8_amended_invalid_target stateC8dangling
  refine ⟨⟨w3, w4, w5⟩, hp "q" rfl, hdd "p9" rfl rfl⟩

/-! ### Settings interchange layer (`settingsService.ts`) -/

/-- The `filename.replace(/\.[^/.]+$/, "")` helper: drop a final dot followed
by one or more characters none of which is a dot or a slash; otherwise return
the string unchanged. -/
def getFilenameWithoutExtension (s : String) : String :=
  let cs := s.toList
  let rcs := cs.reverse
  let ext := rcs.takeWhile (fun c => c != '.' && c != '/')
  match rcs.drop ext.length with
  | '.' :: _ =>
    if ext.length = 0 then s
    else String.mk (cs.take (cs.length - (ext.length + 1)))
  | _ => s

/-- An entry of the exported `audioFiles` array. -/
structure ExportedAudio where
  name : String
  trimHead : Option ℚ
  trimTail : Option ℚ
  volume : ℚ
deriving DecidableEq, Repr

/-- An entry of an exported playlist's `items` array. -/
structure ExportedPlaylistItem where
  audioFilename : String
deriving DecidableEq, Repr

/-- An entry of the exported `playlists` array. -/
structure ExportedPlaylist where
  id : String
  name : String
  items : List ExportedPlaylistItem
  playbackMode : String
deriving DecidableEq, Repr

/-- An entry of the exported `hotkeys` array; `filename` / `playlistId` are
present only when the export found the referent. -/
structure ExportedHotkey where
  bank : Nat
  keynumber : Nat
  type : AType
  filename : Option String
  playlistId : Option String
deriving DecidableEq, Repr

/-- The exported settings document. -/
structure ExportedSettings where
  audioFiles : List ExportedAudio
  playlists : List ExportedPlaylist
  hotkeys : List ExportedHotkey
deriving DecidableEq, Repr

/-- `exportSettings(audioFiles, playlists, hotkeys)`. -/
def exportSettings (audioFiles : List AudioFile) (playlists : List Playlist)
    (hotkeys : List HotKey) : ExportedSettings :=
  { audioFiles := audioFiles.map (fun a =>
      { name := getFilenameWithoutExtension a.name
        trimHead := a.trimHead
        trimTail := a.trimTail
        volume := a.volume }),
    playlists := playlists.map (fun pl =>
      { id := pl.id
        name := pl.name
        items := (pl.items.map (fun it =>
          match audioFiles.find? (fun a => a.id == it.audioId) with
          | some a =>
            ({ audioFilename := getFilenameWithoutExtension a.name } : ExportedPlaylistItem)
          | none => ({ audioFilename := "" } : ExportedPlaylistItem))).filter
            (fun it => it.audioFilename ≠ "")
        playbackMode := pl.playbackMode }),
    hotkeys := hotkeys.filterMap (fun hk =>
      hk.assignedItem.map (fun ai =>
        { bank := hk.bankId
          keynumber := hk.position
          type := ai.type
          filename :=
            if ai.type = AType.audio then
              (audioFiles.find? (fun a => a.id == ai.id)).map
                (fun a => getFilenameWithoutExtension a.name)
            else none
          playlistId :=
            if ai.type = AType.playlist then
              (playlists.find? (fun p => p.id == ai.id)).map (fun p => p.id)
            else none })) }

/-- The `audioFilesByName` map: built by successive `Map.set` over the current
files, so a later file with the same stripped name wins. -/
def lookupAudioByName (files : List AudioFile) (name : String) : Option AudioFile :=
  files.foldl (fun acc a =>
    if getFilenameWithoutExtension a.name = name then some a else acc) none

/-- `Map.set` on the imported-playlist-id map (last write wins). -/
def mapSet (m : List (String × String)) (k v : String) : List (String × String) :=
  m ++ [(k, v)]

/-- `Map.get` on the imported-playlist-id map. -/
def mapGet (m : List (String × String)) (k : String) : Option String :=
  m.foldl (fun acc e => if e.1 = k then some e.2 else acc) none

/-- The accumulated outcome of `importSettings`: the `missingFiles` list and
`playlistMap` it maintains, the fresh-playlist counter, and the trace of
calls made to the mutation callbacks (`updateAudioFile`, `createPlaylist`,
`updatePlaylist`, `addToPlaylist`, `assignToHotkey`). -/
structure ImportEffects where
  missingFiles : List String
  playlistMap : List (String × String)
  createdCount : Nat
  createdPlaylists : List Playlist
  playlistUpdates : List (String × String)
  audioUpdates : List (String × AppState.AudioFileUpdate)
  itemAdds : List (String × String)
  hotkeyAssigns : List (Nat × Nat × AssignedItem)
deriving DecidableEq, Repr

/-- The empty accumulator at the start of `importSettings`. -/
def emptyEffects : ImportEffects :=
  { missingFiles := []
    playlistMap := []
    createdCount := 0
    createdPlaylists := []
    playlistUpdates := []
    audioUpdates := []
    itemAdds := []
    hotkeyAssigns := [] }

/-- The id handed out by `createPlaylist` for the n-th playlist created during
an import (a fresh id in the model of `uuidv4`). -/
def freshPlaylistId (n : Nat) : String :=
  "imported-" ++ toString n

/-- Phase 1 of `importSettings`: apply trim/volume updates for each imported
audio name found in the library, recording each name not found as missing. -/
def importAudioPhase (cur : List AudioFile) (eff : ImportEffects)
    (l : List ExportedAudio) : ImportEffects :=
  l.foldl (fun eff ia =>
    match lookupAudioByName cur ia.name with
    | some a =>
      { eff with audioUpdates := eff.audioUpdates ++
          [(a.id, { trimHead := some ia.trimHead, trimTail := some ia.trimTail,
                    volume := some ia.volume })] }
    | none => { eff with missingFiles := eff.missingFiles ++ [ia.name] }) eff

/-- The inner loop of phase 2: add each resolvable item of one imported
playlist to the target playlist, recording unresolvable names as missing
(deduplicated). -/
def importPlaylistItems (cur : List AudioFile) (targetId : String)
    (eff : ImportEffects) (items : List ExportedPlaylistItem) : ImportEffects :=
  items.foldl (fun eff it =>
    match lookupAudioByName cur it.audioFilename with
    | some a => { eff with itemAdds := eff.itemAdds ++ [(targetId, a.id)] }
    | none =>
      if it.audioFilename ∈ eff.missingFiles then eff
      else { eff with missingFiles := eff.missingFiles ++ [it.audioFilename] }) eff

/-- Phase 2 of `importSettings`, one imported playlist: reuse the first
current playlist with the same name (updating its playback mode) or create a
fresh one, record the id mapping, then add the items. -/
def importOnePlaylist (cur : List AudioFile) (curPls : List Playlist)
    (eff : ImportEffects) (ip : ExportedPlaylist) : ImportEffects :=
  let eff1 :=
    match curPls.find? (fun p => p.name == ip.name) with
    | some ex =>
      { eff with
          playlistUpdates := eff.playlistUpdates ++ [(ex.id, ip.playbackMode)]
          playlistMap := mapSet eff.playlistMap ip.id ex.id }
    | none =>
      let newId := freshPlaylistId eff.createdCount
      { eff with
          createdCount := eff.createdCount + 1
          createdPlaylists := eff.createdPlaylists ++
            [{ id := newId, name := ip.name, items := [], playbackMode := "follow-on" }]
          playlistMap := mapSet eff.playlistMap ip.id newId }
  let targetId := (mapGet eff1.playlistMap ip.id).getD ""
  importPlaylistItems cur targetId eff1 ip.items

/-- Phase 2 of `importSettings` over all imported playlists. -/
def importPlaylistPhase (cur : List AudioFile) (curPls : List Playlist)
    (eff : ImportEffects) (l : List ExportedPlaylist) : ImportEffects :=
  l.foldl (importOnePlaylist cur curPls) eff

/-- Phase 3 of `importSettings`, one imported hotkey: resolve an audio
assignment by (truthy) filename — recording an unresolvable one as missing
(deduplicated) — and a playlist assignment through the playlist map,
silently skipping an unresolvable playlist id. -/
def importOneHotkey (cur : List AudioFile) (eff : ImportEffects)
    (ih : ExportedHotkey) : ImportEffects :=
  match ih.type with
  | AType.audio =>
    match ih.filename with
    | some f =>
      if f = "" then eff
      else
        match lookupAudioByName cur f with
        | some a =>
          { eff with hotkeyAssigns := eff.hotkeyAssigns ++
              [(ih.bank, ih.keynumber, { type := AType.audio, id := a.id })] }
        | none =>
          if f ∈ eff.missingFiles then eff
          else { eff with missingFiles := eff.missingFiles ++ [f] }
    | none => eff
  | AType.playlist =>
    match ih.playlistId with
    | some pid =>
      if pid = "" then eff
      else
        match mapGet eff.playlistMap pid with
        | some nid =>
          { eff with hotkeyAssigns := eff.hotkeyAssigns ++
              [(ih.bank, ih.keynumber, { type := AType.playlist, id := nid })] }
        | none => eff
    | none => eff

/-- Phase 3 of `importSettings` over all imported hotkeys. -/
def importHotkeyPhase (cur : List AudioFile) (eff : ImportEffects)
    (l : List ExportedHotkey) : ImportEffects :=
  l.foldl (importOneHotkey cur) eff

/-- `importSettings(settings, currentAudioFiles, currentPlaylists, ...)`:
the three phases in order, starting from the empty accumulator.  All name
lookups read the snapshots passed in, as in the source. -/
def importSettings (settings : ExportedSettings) (currentAudioFiles : List AudioFile)
    (currentPlaylists : List Playlist) : ImportEffects :=
  importHotkeyPhase currentAudioFiles
    (importPlaylistPhase currentAudioFiles currentPlaylists
      (importAudioPhase currentAudioFiles emptyEffects settings.audioFiles)
      settings.playlists)
    settings.hotkeys

/-! ### Lemmas about the import lookups -/

/-- A fold building a last-match lookup is `some` as soon as the start value
is `some` or some listed file has the wanted stripped name. -/
theorem lookup_foldl_isSome (n : String) :
    ∀ (files : List AudioFile) (init : Option AudioFile),
      (init.isSome = true ∨ ∃ a ∈ files, getFilenameWithoutExtension a.name = n) →
      (files.foldl (fun acc a =>
        if getFilenameWithoutExtension a.name = n then some a else acc) init).isSome = true := by
  intro files
  induction files with
  | nil =>
    intro init h
    rcases h with h | ⟨a, ha, _⟩
    · simpa using h
    · cases ha
  | cons a l ih =>
    intro init h
    rw [List.foldl_cons]
    apply ih
    by_cases hm : getFilenameWithoutExtension a.name = n
    · left
      rw [if_pos hm]
      rfl
    · rw [if_neg hm]
      rcases h with h | ⟨b, hb, hbn⟩
      · exact Or.inl h
      · rcases List.mem_cons.mp hb with rfl | hbl
        · exact absurd hbn hm
        · exact Or.inr ⟨b, hbl, hbn⟩

/-- A file of the library is always found under its stripped name. -/
theorem lookupAudioByName_isSome (files : List AudioFile) (n : String)
    (h : ∃ a ∈ files, getFilenameWithoutExtension a.name = n) :
    (lookupAudioByName files n).isSome = true :=
  lookup_foldl_isSome n files none (Or.inr h)

/-- `Map.get` after `Map.set` of the same key. -/
theorem mapGet_mapSet_self (m : List (String × String)) (k v : String) :
    mapGet (mapSet m k v) k = some v := by
  unfold mapGet mapSet
  rw [List.foldl_append]
  simp

/-- `Map.set` never makes an existing key unresolvable. -/
theorem mapGet_mapSet_isSome (m : List (String × String)) (k v k' : String)
    (h : (mapGet m k').isSome = true) :
    (mapGet (mapSet m k v) k').isSome = true := by
  unfold mapGet mapSet at *
  rw [List.foldl_append]
  simp only [List.foldl_cons, List.foldl_nil]
  by_cases hk : k = k'
  · rw [if_pos hk]
    rfl
  · rw [if_neg hk]
    exact h

/-- Phase 1 leaves `missingFiles` and `playlistMap` unchanged when every
imported audio name resolves. -/
theorem importAudioPhase_frame (cur : List AudioFile) :
    ∀ (l : List ExportedAudio) (eff : ImportEffects),
      (∀ ia ∈ l, (lookupAudioByName cur ia.name).isSome = true) →
      (importAudioPhase cur eff l).missingFiles = eff.missingFiles ∧
      (importAudioPhase cur eff l).playlistMap = eff.playlistMap := by
  intro l
  induction l with
  | nil =>
    intro eff _
    exact ⟨rfl, rfl⟩
  | cons ia l ih =>
    intro eff h
    have hia := h ia (List.mem_cons_self ia l)
    unfold importAudioPhase
    rw [List.foldl_cons]
    cases hl : lookupAudioByName cur ia.name with
    | none =>
      rw [hl] at hia
      cases hia
    | some a =>
      dsimp only
      have htail : ∀ ia' ∈ l, (lookupAudioByName cur ia'.name).isSome = true :=
        fun ia' hm => h ia' (List.mem_cons_of_mem _ hm)
      exact ih _ htail

/-- The item loop of phase 2 leaves `missingFiles` and `playlistMap`
unchanged when every item filename resolves. -/
theorem importPlaylistItems_frame (cur : List AudioFile) (targetId : String) :
    ∀ (items : List ExportedPlaylistItem) (eff : ImportEffects),
      (∀ it ∈ items, (lookupAudioByName cur it.audioFilename).isSome = true) →
      (importPlaylistItems cur targetId eff items).missingFiles = eff.missingFiles ∧
      (importPlaylistItems cur targetId eff items).playlistMap = eff.playlistMap := by
  intro items
  induction items with
  | nil =>
    intro eff _
    exact ⟨rfl, rfl⟩
  | cons it l ih =>
    intro eff h
    have hit := h it (List.mem_cons_self it l)
    unfold importPlaylistItems
    rw [List.foldl_cons]
    cases hl : lookupAudioByName cur it.audioFilename with
    | none =>
      rw [hl] at hit
      cases hit
    | some a =>
      dsimp only
      have htail : ∀ it' ∈ l, (lookupAudioByName cur it'.audioFilename).isSome = true :=
        fun it' hm => h it' (List.mem_cons_of_mem _ hm)
      exact ih _ htail

/-- One playlist of phase 2: the missing list is unchanged when its items
resolve, existing map keys stay resolvable, and the playlist's own imported
id becomes resolvable. -/
theorem importOnePlaylist_spec (cur : List AudioFile) (curPls : List Playlist)
    (eff : ImportEffects) (ip : ExportedPlaylist)
    (hitems : ∀ it ∈ ip.items, (lookupAudioByName cur it.audioFilename).isSome = true) :
    (importOnePlaylist cur curPls eff ip).missingFiles = eff.missingFiles ∧
    (∀ k, (mapGet eff.playlistMap k).isSome = true →
      (mapGet (importOnePlaylist cur curPls eff ip).playlistMap k).isSome = true) ∧
    (mapGet (importOnePlaylist cur curPls eff ip).playlistMap ip.id).isSome = true := by
  unfold importOnePlaylist
  cases hf : curPls.find? (fun p => p.name == ip.name) with
  | some ex =>
    dsimp only
    obtain ⟨hm, hmap⟩ := importPlaylistItems_frame cur _ ip.items
      { eff with
          playlistUpdates := eff.playlistUpdates ++ [(ex.id, ip.playbackMode)]
          playlistMap := mapSet eff.playlistMap ip.id ex.id } hitems
    refine ⟨hm, ?_, ?_⟩
    · intro k hk
      rw [hmap]
      exact mapGet_mapSet_isSome _ _ _ _ hk
    · rw [hmap]
      rw [mapGet_mapSet_self]
      rfl
  | none =>
    dsimp only
    obtain ⟨hm, hmap⟩ := importPlaylistItems_frame cur _ ip.items
      { eff with
          createdCount := eff.createdCount + 1
          createdPlaylists := eff.createdPlaylists ++
            [{ id := freshPlaylistId eff.createdCount, name := ip.name, items := [],
               playbackMode := "follow-on" }]
          playlistMap := mapSet eff.playlistMap ip.id (freshPlaylistId eff.createdCount) }
      hitems
    refine ⟨hm, ?_, ?_⟩
    · intro k hk
      rw [hmap]
      exact mapGet_mapSet_isSome _ _ _ _ hk
    · rw [hmap]
      rw [mapGet_mapSet_self]
      rfl

/-- Phase 2 over all playlists: missing list unchanged when every item of
every playlist resolves, existing map keys stay resolvable, and every
imported playlist id becomes resolvable. -/
theorem importPlaylistPhase_spec (cur : List AudioFile) (curPls : List Playlist) :
    ∀ (l : List ExportedPlaylist) (eff : ImportEffects),
      (∀ ip ∈ l, ∀ it ∈ ip.items, (lookupAudioByName cur it.audioFilename).isSome = true) →
      (importPlaylistPhase cur curPls eff l).missingFiles = eff.missingFiles ∧
      (∀ k, (mapGet eff.playlistMap k).isSome = true →
        (mapGet (importPlaylistPhase cur curPls eff l).playlistMap k).isSome = true) ∧
      (∀ ip ∈ l, (mapGet (importPlaylistPhase cur curPls eff l).playlistMap ip.id).isSome = true) := by
  intro l
  induction l with
  | nil =>
    intro eff _
    refine ⟨rfl, fun k hk => hk, ?_⟩
    intro ip hip
    cases hip
  | cons ip l ih =>
    intro eff h
    have hip := h ip (List.mem_cons_self ip l)
    have htail : ∀ ip' ∈ l, ∀ it ∈ ip'.items,
        (lookupAudioByName cur it.audioFilename).isSome = true :=
      fun ip' hm => h ip' (List.mem_cons_of_mem _ hm)
    obtain ⟨hm1, hmono1, hself1⟩ := importOnePlaylist_spec cur curPls eff ip hip
    have hrest := ih (importOnePlaylist cur curPls eff ip) htail
    obtain ⟨hm2, hmono2, hall2⟩ := hrest
    have hfold : importPlaylistPhase cur curPls eff (ip :: l) =
        importPlaylistPhase cur curPls (importOnePlaylist cur curPls eff ip) l := by
      unfold importPlaylistPhase
      rw [List.foldl_cons]
    refine ⟨?_, ?_, ?_⟩
    · rw [hfold, hm2, hm1]
    · intro k hk
      rw [hfold]
      exact hmono2 k (hmono1 k hk)
    · intro ip' hip'
      rcases List.mem_cons.mp hip' with rfl | hmem
      · rw [hfold]
        exact hmono2 ip'.id hself1
      · rw [hfold]
        exact hall2 ip' hmem

/-- One hotkey of phase 3: `missingFiles` is unchanged when any truthy audio
filename resolves, and `playlistMap` is never changed. -/
theorem importOneHotkey_frame (cur : List AudioFile) (eff : ImportEffects)
    (ih : ExportedHotkey)
    (haud : ih.type = AType.audio → ∀ f, ih.filename = some f → f ≠ "" →
      (lookupAudioByName cur f).isSome = true) :
    (importOneHotkey cur eff ih).missingFiles = eff.missingFiles ∧
    (importOneHotkey cur eff ih).playlistMap = eff.playlistMap := by
  unfold importOneHotkey
  cases hty : ih.type with
  | audio =>
    cases hfn : ih.filename with
    | none => exact ⟨rfl, rfl⟩
    | some f =>
      dsimp only
      by_cases hne : f = ""
      · rw [if_pos hne]
        exact ⟨rfl, rfl⟩
      · rw [if_neg hne]
        have := haud hty f hfn hne
        cases hl : lookupAudioByName cur f with
        | none =>
          rw [hl] at this
          cases this
        | some a =>
          exact ⟨rfl, rfl⟩
  | playlist =>
    cases hfn : ih.playlistId with
    | none => exact ⟨rfl, rfl⟩
    | some pid =>
      dsimp only
      by_cases hne : pid = ""
      · rw [if_pos hne]
        exact ⟨rfl, rfl⟩
      · rw [if_neg hne]
        cases hl : mapGet eff.playlistMap pid with
        | none => exact ⟨rfl, rfl⟩
        | some nid => exact ⟨rfl, rfl⟩

/-- Phase 3 over all hotkeys: `missingFiles` unchanged when every truthy
audio filename resolves, and `playlistMap` always unchanged. -/
theorem importHotkeyPhase_frame (cur : List AudioFile) :
    ∀ (l : List ExportedHotkey) (eff : ImportEffects),
      (∀ ih ∈ l, ih.type = AType.audio → ∀ f, ih.filename = some f → f ≠ "" →
        (lookupAudioByName cur f).isSome = true) →
      (importHotkeyPhase cur eff l).missingFiles = eff.missingFiles ∧
      (importHotkeyPhase cur eff l).playlistMap = eff.playlistMap := by
  intro l
  induction l with
  | nil =>
    intro eff _
    exact ⟨rfl, rfl⟩
  | cons ihk l ihind =>
    intro eff h
    have hfold : importHotkeyPhase cur eff (ihk :: l) =
        importHotkeyPhase cur (importOneHotkey cur eff ihk) l := by
      unfold importHotkeyPhase
      rw [List.foldl_cons]
    obtain ⟨hm1, hmap1⟩ := importOneHotkey_frame cur eff ihk
      (h ihk (List.mem_cons_self ihk l))
    obtain ⟨hm2, hmap2⟩ := ihind (importOneHotkey cur eff ihk)
      (fun x hx => h x (List.mem_cons_of_mem _ hx))
    rw [hfold]
    exact ⟨hm2.trans hm1, hmap2.trans hmap1⟩

/-! ### Resolvability of the exported document against its own library -/

/-- Every exported audio name resolves in the library it came from. -/
theorem export_audio_resolves (A : List AudioFile) (P : List Playlist) (H : List HotKey) :
    ∀ ia ∈ (exportSettings A P H).audioFiles,
      (lookupAudioByName A ia.name).isSome = true := by
  intro ia hia
  simp only [exportSettings, List.mem_map] at hia
  obtain ⟨a, ha, rfl⟩ := hia
  exact lookupAudioByName_isSome A _ ⟨a, ha, rfl⟩

/-- Every item filename of an exported playlist resolves in the library it
came from. -/
theorem export_items_resolve (A : List AudioFile) (P : List Playlist) (H : List HotKey) :
    ∀ ip ∈ (exportSettings A P H).playlists, ∀ it ∈ ip.items,
      (lookupAudioByName A it.audioFilename).isSome = true := by
  intro ip hip it hit
  simp only [exportSettings, List.mem_map] at hip
  obtain ⟨pl, hpl, rfl⟩ := hip
  simp only [List.mem_filter] at hit
  obtain ⟨hmem, hne⟩ := hit
  rw [List.mem_map] at hmem
  obtain ⟨pit, hpit, rfl⟩ := hmem
  cases hfind : A.find? (fun a => a.id == pit.audioId) with
  | none =>
    rw [hfind] at hne
    simp at hne
  | some b =>
    dsimp only
    exact lookupAudioByName_isSome A _ ⟨b, List.mem_of_find?_eq_some hfind, rfl⟩

/-- Every truthy audio filename of an exported hotkey resolves in the library
it came from. -/
theorem export_hotkey_audio_resolves (A : List AudioFile) (P : List Playlist)
    (H : List HotKey) :
    ∀ eh ∈ (exportSettings A P H).hotkeys, eh.type = AType.audio →
      ∀ f, eh.filename = some f → f ≠ "" →
        (lookupAudioByName A f).isSome = true := by
  intro eh heh hty f hf hne
  simp only [exportSettings, List.mem_filterMap] at heh
  obtain ⟨hk, hhk, hmap⟩ := heh
  rw [Option.map_eq_some'] at hmap
  obtain ⟨ai, hai, rfl⟩ := hmap
  dsimp only at hf
  by_cases hat : ai.type = AType.audio
  · rw [if_pos hat] at hf
    rw [Option.map_eq_some'] at hf
    obtain ⟨b, hfind, rfl⟩ := hf
    exact lookupAudioByName_isSome A _ ⟨b, List.mem_of_find?_eq_some hfind, rfl⟩
  · rw [if_neg hat] at hf
    cases hf

/-- Every exported playlist reference carried by a hotkey points at the id of
some playlist of the exported document. -/
theorem export_hotkey_playlist_ref (A : List AudioFile) (P : List Playlist)
    (H : List HotKey) :
    ∀ eh ∈ (exportSettings A P H).hotkeys, ∀ pid, eh.playlistId = some pid →
      ∃ ip ∈ (exportSettings A P H).playlists, ip.id = pid := by
  intro eh heh pid hpid
  simp only [exportSettings, List.mem_filterMap] at heh
  obtain ⟨hk, hhk, hmap⟩ := heh
  rw [Option.map_eq_some'] at hmap
  obtain ⟨ai, hai, rfl⟩ := hmap
  dsimp only at hpid
  by_cases hat : ai.type = AType.playlist
  · rw [if_pos hat] at hpid
    rw [Option.map_eq_some'] at hpid
    obtain ⟨p, hfind, rfl⟩ := hpid
    simp only [exportSettings, List.mem_map]
    exact ⟨_, ⟨p, List.mem_of_find?_eq_some hfind, rfl⟩, rfl⟩
  · rw [if_neg hat] at hpid
    cases hpid

/-! ### Claim C10: export/import round trip -/

/-- C10.  For a library whose clip display names are pairwise distinct after
extension stripping, importing the document produced by `exportSettings`
against the same unchanged library resolves every exported clip name and
every exported hotkey playlist reference (the playlist map resolves it), and
returns an empty missing-names list. -/
theorem c10_export_import_round_trip (A : List AudioFile) (P : List Playlist)
    (H : List HotKey)
    (hdist : (A.map (fun a => getFilenameWithoutExtension a.name)).Nodup) :
    (importSettings (exportSettings A P H) A P).missingFiles = [] ∧
    (∀ eh ∈ (exportSettings A P H).hotkeys, ∀ pid, eh.playlistId = some pid →
      (mapGet (importSettings (exportSettings A P H) A P).playlistMap pid).isSome = true) := by
  obtain ⟨hm1, hmap1⟩ := importAudioPhase_frame A (exportSettings A P H).audioFiles
    emptyEffects (export_audio_resolves A P H)
  obtain ⟨hm2, hmono2, hall2⟩ := importPlaylistPhase_spec A P
    (exportSettings A P H).playlists
    (importAudioPhase A emptyEffects (exportSettings A P H).audioFiles)
    (export_items_resolve A P H)
  obtain ⟨hm3, hmap3⟩ := importHotkeyPhase_frame A (exportSettings A P H).hotkeys
    (importPlaylistPhase A P
      (importAudioPhase A emptyEffects (exportSettings A P H).audioFiles)
      (exportSettings A P H).playlists)
    (export_hotkey_audio_resolves A P H)
  constructor
  · show (importHotkeyPhase A _ _).missingFiles = []
    rw [hm3, hm2, hm1]
    rfl
  · intro eh heh pid hpid
    obtain ⟨ip, hip, hipid⟩ := export_hotkey_playlist_ref A P H eh heh pid hpid
    show (mapGet (importHotkeyPhase A _ _).playlistMap pid).isSome = true
    rw [hmap3]
    rw [← hipid]
    exact hall2 ip hip

/-- The C10 witness library: two clips with distinct stripped names, one
playlist over both, an audio hotkey, and a playlist hotkey. -/
def filesC10 : List AudioFile :=
  [{ id := "1", name := "one.mp3", src := "s1", duration := 10, volume := 1,
     type := "audio/mpeg", trimHead := some 1, trimTail := none },
   { id := "2", name := "two.wav", src := "s2", duration := 8, volume := 1,
     type := "audio/wav", trimHead := none, trimTail := some 2 }]

/-- See `filesC10`. -/
def playlistsC10 : List Playlist :=
  [{ id := "p", name := "P",
     items := [{ id := "i1", audioId := "1" }, { id := "i2", audioId := "2" }],
     playbackMode := "follow-on" }]

/-- See `filesC10`. -/
def hotkeysC10 : List HotKey :=
  [{ id := "hotkey-1-1", bankId := 1, position := 1,
     assignedItem := some { type := AType.audio, id := "2" } },
   { id := "hotkey-1-2", bankId := 1, position := 2,
     assignedItem := some { type := AType.playlist, id := "p" } },
   { id := "hotkey-1-3", bankId := 1, position := 3, assignedItem := none }]

/-- C10 witness: the round trip over the concrete library returns an empty
missing-names list. -/
theorem c10_witness :
    (importSettings (exportSettings filesC10 playlistsC10 hotkeysC10)
      filesC10 playlistsC10).missingFiles = [] :=
  (c10_export_import_round_trip filesC10 playlistsC10 hotkeysC10 (by decide)).1

end Soundboard
